import Mathlib

/-!
Verification of the Lumina personal-assistant repository: a shallow
embedding in Lean 4 of the agentic tool-calling loop (`GeminiService` in
`src/services/geminiService.ts`), its rate-limit / cooldown / cache
governor, and the record store (`src/services/database.ts`), together
with theorems settling the specification claims about them.
-/

namespace Lumina

/-! ## Conversation history normalization (GeminiService.sendMessage, history cleanup)

The source (geminiService.ts, sendMessage):
```
let validHistory = conversationHistory;
if (validHistory.length > 0) {
  if (validHistory[0].role === 'model') {
    validHistory = validHistory.slice(1);
  }
  validHistory = validHistory.filter((msg, index) => {
    if (index === 0) return msg.role === 'user';
    const prevRole = validHistory[index - 1].role;
    return (prevRole === 'user' && msg.role === 'model') ||
           (prevRole === 'model' && msg.role === 'user');
  });
}
```
Note the closure reads `validHistory[index - 1]`: at that point the
variable still denotes the pre-filter array (the reassignment happens
only after `filter` returns), so the predicate consults the predecessor
in the pre-filter array, not in the filtered output.
-/

/-- One conversation turn handed to `startChat`; the code reads only its
`role` field (an arbitrary string in the untyped `any[]` history). -/
structure Turn where
  role : String
  text : String
deriving DecidableEq, Repr

/-- The filter predicate of the source, at position `i` of the pre-filter
array `h1`: index 0 must be a user turn; a later turn is kept iff it and
its predecessor *in the pre-filter array* form a user→model or
model→user pair. -/
def keepAt (h1 : List Turn) (i : Nat) (msg : Turn) : Bool :=
  if i = 0 then msg.role == "user"
  else
    match h1[i-1]? with
    | some prev =>
        (prev.role == "user" && msg.role == "model") ||
        (prev.role == "model" && msg.role == "user")
    | none => false

/-- JS `Array.prototype.filter` with an `(element, index)` callback,
modelled by filtering the enumerated list. -/
def filterIdx (h1 : List Turn) : List Turn :=
  (h1.enum.filter (fun p => keepAt h1 p.1 p.2)).map Prod.snd

/-- The whole normalization step of `sendMessage`: drop one leading
model-authored turn, then apply the index-based filter. An empty history
is returned unchanged (the code guards on `validHistory.length > 0`). -/
def normalizeHistory (h : List Turn) : List Turn :=
  match h with
  | [] => []
  | t :: rest =>
      let h1 := if t.role == "model" then rest else t :: rest
      filterIdx h1

/-- Recursive form of the same filter: the predecessor in the pre-filter
array is exactly the previous element of the structural recursion,
whether or not that element was kept. -/
def filt2 : Turn → List Turn → List Turn
  | _, [] => []
  | prev, t :: rest =>
      if (prev.role == "user" && t.role == "model") ||
         (prev.role == "model" && t.role == "user") then
        t :: filt2 t rest
      else
        filt2 t rest

/-- Checks that a turn list has roles `expect, flip expect, ...` where
roles alternate strictly between "user" and "model". -/
def altAux : String → List Turn → Bool
  | _, [] => true
  | expect, t :: rest =>
      t.role == expect && altAux (if expect == "user" then "model" else "user") rest

/-- The property claimed of normalized histories: first entry (if any)
has role "user" and roles strictly alternate thereafter. -/
def normalizedOK (l : List Turn) : Bool :=
  altAux "user" l

/-! ## Rate limiting (GeminiService.waitForRateLimit)

The source:
```
private async waitForRateLimit() {
  const now = Date.now();
  if (this.quotaResetTime > now) {
    const waitTime = this.quotaResetTime - now;
    await new Promise((resolve) => setTimeout(resolve, waitTime));
    this.quotaResetTime = 0;
  }
  const timeSinceLastRequest = now - this.lastRequestTime;
  if (timeSinceLastRequest < this.minRequestInterval) {
    const waitTime = this.minRequestInterval - timeSinceLastRequest;
    await new Promise((resolve) => setTimeout(resolve, waitTime));
  }
  this.lastRequestTime = Date.now();
}
```
Note both checks use the `now` captured at entry, and `lastRequestTime`
is written only when the caller resumes. `sendMessage` awaits
`waitForRateLimit()` directly; the `requestQueue` / `processQueue`
machinery of the class is never invoked by any caller.

Times are modelled as natural-number millisecond timestamps. -/

/-- GeminiService.minRequestInterval: 3000 ms between requests. -/
def minRequestInterval : Nat := 3000

/-- One complete execution of `waitForRateLimit` by a single caller that
entered at time `now` with the given `quotaResetTime` and
`lastRequestTime` field values, assuming no other caller writes the
fields while this one sleeps. Returns (time at which the caller resumes
and issues its request, new lastRequestTime, new quotaResetTime). Both
comparisons use the entry-time `now`, as in the source. -/
def waitForRateLimit (now quotaResetTime lastRequestTime : Nat) :
    Nat × Nat × Nat :=
  let t1 := if quotaResetTime > now then quotaResetTime else now
  let qr := if quotaResetTime > now then 0 else quotaResetTime
  let t2 := if now - lastRequestTime < minRequestInterval
            then t1 + (minRequestInterval - (now - lastRequestTime))
            else t1
  (t2, t2, qr)

/-- The value of `lastRequestTime` observed by a caller arriving at time
`a`, given the set of issue times of earlier calls: the largest write
whose wall-clock time is ≤ `a` (each resumed call writes its own issue
time), or the initial value 0. -/
def lastAt (issues : List Nat) (a : Nat) : Nat :=
  (issues.filter (fun t => t ≤ a)).foldr max 0

/-- Issue time of a single `waitForRateLimit` call (no active cooldown):
arriving at `arrival` and reading `last`, it proceeds immediately if the
spacing has elapsed, otherwise it sleeps and resumes at
`last + minRequestInterval`. -/
def wflIssueTime (arrival last : Nat) : Nat :=
  if arrival - last < minRequestInterval then last + minRequestInterval
  else arrival

/-- Event-loop trace of several concurrent `sendMessage` calls arriving
at the given (increasing) times with no cooldown active: each call runs
`waitForRateLimit` synchronously at its arrival instant, reading the
`lastRequestTime` written by whichever earlier call has most recently
resumed (`lastAt`), and a sleeping call writes `lastRequestTime` only at
its own resume instant. `done` accumulates the issue times of calls
processed so far. -/
def issueTimesAux : List Nat → List Nat → List Nat
  | _, [] => []
  | done, a :: rest =>
      let t := wflIssueTime a (lastAt done a)
      t :: issueTimesAux (t :: done) rest

/-- Issue times of a burst of calls, starting from the initial field
state `lastRequestTime = 0`, `quotaResetTime = 0`. -/
def issueTimes (arrivals : List Nat) : List Nat :=
  issueTimesAux [] arrivals

/-- The spacing property the specification claims of outbound requests:
consecutive issue times are at least `minRequestInterval` apart (which
also entails FIFO/monotone order). -/
def spacedBy : List Nat → Bool
  | [] => true
  | [_] => true
  | a :: b :: rest => (a + minRequestInterval ≤ b) && spacedBy (b :: rest)

/-! ## Error classification in sendMessage's catch block

The source classifies by substring search on the error message:
```
if (errorMsg.includes('429') || errorMsg.includes('quota') ||
    errorMsg.includes('RESOURCE_EXHAUSTED')) {
  this.quotaResetTime = Date.now() + 60000;
  return { text: '...Please wait about a minute...', actions: [] };
}
if (errorMsg.includes('PERMISSION_DENIED') || errorMsg.includes('UNAUTHENTICATED')) {
  return { text: '...API key...', actions: [] };
}
return { text: `I apologize... ${errorMsg.substring(0, 100)}...`, actions: [] };
```
-/

/-- Does the character list start with the pattern `p`? -/
def startsWithSeq : List Char → List Char → Bool
  | [], _ => true
  | _ :: _, [] => false
  | p :: ps, h :: hs => p == h && startsWithSeq ps hs

/-- Does the haystack contain the pattern as a contiguous subsequence? -/
def containsSeq (pat : List Char) : List Char → Bool
  | [] => pat.isEmpty
  | h :: t => startsWithSeq pat (h :: t) || containsSeq pat t

/-- JS `hay.includes(pat)` on strings. -/
def strContainsStr (hay pat : String) : Bool :=
  containsSeq pat.toList hay.toList

/-- The quota-exhaustion "please wait" message returned by sendMessage
(verbatim from the source, including its leading glyphs). -/
def quotaWaitText : String :=
  "‚è≥ I\x27ve hit my API quota. Please wait about a minute before trying again. This helps me manage my usage limits."

/-- The authentication / permission configuration-error message. -/
def authErrorText : String :=
  "üîë There\x27s an issue with my API key. Please check that your EXPO_PUBLIC_GEMINI_API_KEY is set correctly in the .env file."

/-- The generic truncated-error message (`errorMsg.substring(0, 100)`). -/
def genericErrorText (errorMsg : String) : String :=
  "I apologize, but I encountered an error: " ++ (errorMsg.take 100) ++ ". Please try again."

/-- True iff the error message matches the quota-exhaustion tests of the
catch block. -/
def isQuotaError (errorMsg : String) : Bool :=
  strContainsStr errorMsg "429" || strContainsStr errorMsg "quota" ||
  strContainsStr errorMsg "RESOURCE_EXHAUSTED"

/-- True iff the error message matches the auth/permission tests. -/
def isAuthError (errorMsg : String) : Bool :=
  strContainsStr errorMsg "PERMISSION_DENIED" || strContainsStr errorMsg "UNAUTHENTICATED"

/-! ## Record store (src/services/database.ts)

Rows of the four tables. Timestamps (`date`, `timestamp` columns) are
modelled as natural-number millisecond instants; the ISO-8601
serialization at the store boundary is order- and value-preserving, so
it is abstracted away. -/

/-- A row of the `transactions` table. -/
structure TransactionR where
  id : String
  amount : Int
  ttype : String
  category : String
  description : String
  date : Nat
deriving DecidableEq, Repr

/-- A row of the `schedules` table. -/
structure ScheduleR where
  id : String
  title : String
  description : String
  date : Nat
  time : String
  reminder : Int
deriving DecidableEq, Repr

/-- A row of the `journal_entries` table. -/
structure JournalR where
  id : String
  content : String
  mood : String
  date : Nat
deriving DecidableEq, Repr

/-- A row of the `chat_messages` table. -/
structure ChatRow where
  id : String
  text : String
  isUser : Bool
  ts : Nat
  persona : String
deriving DecidableEq, Repr

/-- Descending order on timestamps, used for `ORDER BY date DESC` /
`ORDER BY timestamp DESC`. -/
def tsGE (a b : Nat) : Prop := b ≤ a

instance : DecidableRel tsGE := fun a b => inferInstanceAs (Decidable (b ≤ a))

instance : IsTotal Nat tsGE := ⟨fun a b => Nat.le_total b a⟩

instance : IsTrans Nat tsGE := ⟨fun _ _ _ h1 h2 => Nat.le_trans h2 h1⟩

/-- `ORDER BY <key> DESC` over a table, as a sort of the row list. -/
def sortByDesc (key : α → Nat) (rows : List α) : List α :=
  rows.insertionSort (fun a b => tsGE (key a) (key b))

instance : IsTotal ChatRow (fun a b : ChatRow => tsGE a.ts b.ts) :=
  ⟨fun a b => Nat.le_total b.ts a.ts⟩

instance : IsTrans ChatRow (fun a b : ChatRow => tsGE a.ts b.ts) :=
  ⟨fun _ _ _ h1 h2 => Nat.le_trans h2 h1⟩

/-- `ORDER BY <key> ASC` over a table. -/
def sortByAsc (key : α → Nat) (rows : List α) : List α :=
  rows.insertionSort (fun a b => key a ≤ key b)

/-!
Every operation of `DatabaseService` begins with
`if (!this.db) throw new Error('Database not initialized');` and wraps
its SQL in try/catch. Create, delete and clear operations rethrow the
caught error; the four list operations instead log it and
`return [];`. Each operation below takes `dbInit : Bool` (whether
`init()` has completed and set `this.db`) and `io : Option String`
(`some e` models the underlying SQLite call throwing `e`; `none` models
success), and returns `Except String` — `.error` models a thrown
exception reaching the caller. -/

/-- DatabaseService.addTransaction. The row id is `Date.now().toString()`. -/
def addTransactionD (dbInit : Bool) (io : Option String)
    (table : List TransactionR) (t : TransactionR) :
    Except String (List TransactionR) :=
  if !dbInit then .error "Database not initialized"
  else match io with
    | some e => .error e
    | none => .ok (table ++ [t])

/-- DatabaseService.getTransactions: `SELECT * ... ORDER BY date DESC`;
on an I/O failure the catch block returns the empty list. -/
def getTransactionsD (dbInit : Bool) (io : Option String)
    (table : List TransactionR) : Except String (List TransactionR) :=
  if !dbInit then .error "Database not initialized"
  else match io with
    | some _ => .ok []
    | none => .ok (sortByDesc TransactionR.date table)

/-- DatabaseService.deleteTransaction: `DELETE ... WHERE id = ?`. -/
def deleteTransactionD (dbInit : Bool) (io : Option String)
    (table : List TransactionR) (i : String) :
    Except String (List TransactionR) :=
  if !dbInit then .error "Database not initialized"
  else match io with
    | some e => .error e
    | none => .ok (table.filter (fun r => !(r.id == i)))

/-- DatabaseService.addSchedule. -/
def addScheduleD (dbInit : Bool) (io : Option String)
    (table : List ScheduleR) (s : ScheduleR) :
    Except String (List ScheduleR) :=
  if !dbInit then .error "Database not initialized"
  else match io with
    | some e => .error e
    | none => .ok (table ++ [s])

/-- DatabaseService.getSchedules: `ORDER BY date ASC`; empty list on I/O
failure. -/
def getSchedulesD (dbInit : Bool) (io : Option String)
    (table : List ScheduleR) : Except String (List ScheduleR) :=
  if !dbInit then .error "Database not initialized"
  else match io with
    | some _ => .ok []
    | none => .ok (sortByAsc ScheduleR.date table)

/-- DatabaseService.deleteSchedule. -/
def deleteScheduleD (dbInit : Bool) (io : Option String)
    (table : List ScheduleR) (i : String) :
    Except String (List ScheduleR) :=
  if !dbInit then .error "Database not initialized"
  else match io with
    | some e => .error e
    | none => .ok (table.filter (fun r => !(r.id == i)))

/-- DatabaseService.addJournalEntry. -/
def addJournalEntryD (dbInit : Bool) (io : Option String)
    (table : List JournalR) (j : JournalR) :
    Except String (List JournalR) :=
  if !dbInit then .error "Database not initialized"
  else match io with
    | some e => .error e
    | none => .ok (table ++ [j])

/-- DatabaseService.getJournalEntries: `ORDER BY date DESC`; empty list
on I/O failure. -/
def getJournalEntriesD (dbInit : Bool) (io : Option String)
    (table : List JournalR) : Except String (List JournalR) :=
  if !dbInit then .error "Database not initialized"
  else match io with
    | some _ => .ok []
    | none => .ok (sortByDesc JournalR.date table)

/-- DatabaseService.deleteJournalEntry. -/
def deleteJournalEntryD (dbInit : Bool) (io : Option String)
    (table : List JournalR) (i : String) :
    Except String (List JournalR) :=
  if !dbInit then .error "Database not initialized"
  else match io with
    | some e => .error e
    | none => .ok (table.filter (fun r => !(r.id == i)))

/-- DatabaseService.getChatMessages: `ORDER BY timestamp DESC LIMIT 100`;
empty list on I/O failure. -/
def getChatMessagesD (dbInit : Bool) (io : Option String)
    (table : List ChatRow) : Except String (List ChatRow) :=
  if !dbInit then .error "Database not initialized"
  else match io with
    | some _ => .ok []
    | none => .ok ((sortByDesc ChatRow.ts table).take 100)

/-- DatabaseService.clearAllData, restricted to its effect on one table
(all four tables are emptied alike). -/
def clearTableD (dbInit : Bool) (io : Option String)
    (_table : List α) : Except String (List α) :=
  if !dbInit then .error "Database not initialized"
  else match io with
    | some e => .error e
    | none => .ok []

/-!
DatabaseService.addChatMessage:
```
await this.db.runAsync('INSERT INTO chat_messages ... VALUES (?, ?, ?, ?, ?)', ...);
await this.db.runAsync(`
  DELETE FROM chat_messages WHERE id NOT IN (
    SELECT id FROM chat_messages ORDER BY timestamp DESC LIMIT 100
  )`);
```
The retention trim keeps the rows whose ids appear among the 100 most
recent by timestamp, deleting all others, in the same logical write. -/

/-- The id set kept by the retention subquery:
`SELECT id FROM chat_messages ORDER BY timestamp DESC LIMIT 100`. -/
def keepIds (rows : List ChatRow) : List String :=
  ((sortByDesc ChatRow.ts rows).take 100).map ChatRow.id

/-- DatabaseService.addChatMessage (success path): insert the row, then
delete every row whose id is not in the kept-id set. -/
def addChatMessageD (table : List ChatRow) (m : ChatRow) : List ChatRow :=
  let rows := table ++ [m]
  rows.filter (fun r => (keepIds rows).contains r.id)

/-- DatabaseService.addChatMessage with the initialization check and the
try/catch around the insert-and-trim write (which rethrows). -/
def addChatMessageFullD (dbInit : Bool) (io : Option String)
    (table : List ChatRow) (m : ChatRow) : Except String (List ChatRow) :=
  if !dbInit then .error "Database not initialized"
  else match io with
    | some e => .error e
    | none => .ok (addChatMessageD table m)

/-! ## Tool dispatch and the agentic loop (GeminiService.sendMessage)

The tool-call round loop executes every requested call, dispatching on
`call.name` in a switch whose default case is
`result = { result: 'Unknown function' };`, all wrapped per call in
`try { ... } catch (error) { result = { result: `Error: ...` }; }`.
Mutating handlers push an AgenticAction only after their store write
succeeds. Tool arguments are modelled by one constructor per switch
case; an unmatched name is the `unknown` constructor. Remote-backed
results (`getDailyQuote`, `searchWeb`) carry the text produced by the
corresponding cached remote operation, which is modelled separately. -/

/-- The AgenticAction `type` field. -/
inductive ActionType
  | transaction | schedule | journal | quote | search | none
deriving DecidableEq, Repr

/-- A requested tool call, one constructor per switch case of the
dispatch. Date arguments are millisecond timestamps (the JS
string-to-Date parse is abstracted away). -/
inductive ToolCall
  | logTransaction (ttype : String) (amount : Int) (category description : String)
  | scheduleMeeting (title : String) (date : Nat) (time : String)
      (duration : Int) (description : Option String)
  | addJournalEntry (content mood : String)
  | getDailyQuote (quoteText : String)
  | getUserFinances (period : String)
  | getUserSchedule (period : String)
  | getUserJournals (period : String)
  | searchWeb (query : String) (searchText : String)
  | unknown (name : String)
deriving DecidableEq, Repr

/-- The transient AgenticAction record surfaced to the caller; `data`
carries the tool-call arguments that produced it. -/
structure AgenticAction where
  type : ActionType
  data : Option ToolCall
  executed : Bool
deriving DecidableEq, Repr

/-- The mutable record-store contents visible to the loop's handlers. -/
structure DBState where
  transactions : List TransactionR
  schedules : List ScheduleR
  journals : List JournalR
deriving DecidableEq, Repr

/-- Replace the transactions table. -/
def DBState.withTransactions (db : DBState) (l : List TransactionR) : DBState :=
  ⟨l, db.schedules, db.journals⟩

/-- Replace the schedules table. -/
def DBState.withSchedules (db : DBState) (l : List ScheduleR) : DBState :=
  ⟨db.transactions, l, db.journals⟩

/-- Replace the journals table. -/
def DBState.withJournals (db : DBState) (l : List JournalR) : DBState :=
  ⟨db.transactions, db.schedules, l⟩

/-- The aggregate the getUserFinances handler computes from the fetched
transaction list (the handler never reads its `period` argument). -/
structure FinanceSummary where
  totalIncome : Int
  totalExpense : Int
  balance : Int
  transactionCount : Nat
deriving DecidableEq, Repr

/-- getUserFinances aggregates: income and expense totals via
`filter`/`reduce`, over whatever list `getTransactions()` returned. -/
def financeSummary (transactions : List TransactionR) : FinanceSummary :=
  let totalIncome :=
    (transactions.filter (fun t => t.ttype == "income")).foldl
      (fun sum t => sum + t.amount) 0
  let totalExpense :=
    (transactions.filter (fun t => t.ttype == "expense")).foldl
      (fun sum t => sum + t.amount) 0
  ⟨totalIncome, totalExpense, totalIncome - totalExpense, transactions.length⟩

/-- The aggregate the getUserSchedule handler computes. -/
structure ScheduleSummary where
  upcomingCount : Nat
  totalSchedules : Nat
  schedules : List ScheduleR
deriving DecidableEq, Repr

/-- getUserSchedule aggregates: count of entries with
`new Date(s.date) > new Date()`, total count, and the first five rows of
the fetched (date-ascending) list. -/
def scheduleSummary (now : Nat) (schedules : List ScheduleR) : ScheduleSummary :=
  ⟨(schedules.filter (fun s => now < s.date)).length,
   schedules.length, schedules.take 5⟩

/-- The aggregate the getUserJournals handler computes. -/
structure JournalSummary where
  totalEntries : Nat
  moodCounts : List (String × Nat)
  recentEntries : List JournalR
deriving DecidableEq, Repr

/-- One step of the `reduce` that builds the mood-count record:
increment the count under key `m`, appending a fresh key at the end. -/
def bumpMood : List (String × Nat) → String → List (String × Nat)
  | [], m => [(m, 1)]
  | (k, v) :: rest, m =>
      if k == m then (k, v + 1) :: rest else (k, v) :: bumpMood rest m

/-- getUserJournals aggregates over the fetched (date-descending) list:
total count, mood-count record, first three entries. -/
def journalSummary (journals : List JournalR) : JournalSummary :=
  ⟨journals.length,
   journals.foldl (fun acc e => bumpMood acc e.mood) [],
   journals.take 3⟩

/-- Rendering of a flat summary object by `JSON.stringify`. -/
def renderFinance (f : FinanceSummary) : String :=
  "\x7b\"totalIncome\":" ++ toString f.totalIncome ++
  ",\"totalExpense\":" ++ toString f.totalExpense ++
  ",\"balance\":" ++ toString f.balance ++
  ",\"transactionCount\":" ++ toString f.transactionCount ++ "\x7d"

/-- JSON array rendering helper. -/
def renderList (f : α → String) (l : List α) : String :=
  "[" ++ String.intercalate "," (l.map f) ++ "]"

/-- JSON rendering of a schedule row (dates as numeric timestamps). -/
def renderScheduleRow (s : ScheduleR) : String :=
  "\x7b\"id\":\"" ++ s.id ++ "\",\"title\":\"" ++ s.title ++
  "\",\"description\":\"" ++ s.description ++
  "\",\"date\":" ++ toString s.date ++ ",\"time\":\"" ++ s.time ++
  "\",\"reminder\":" ++ toString s.reminder ++ "\x7d"

/-- JSON rendering of the getUserSchedule result. -/
def renderSchedule (s : ScheduleSummary) : String :=
  "\x7b\"upcomingCount\":" ++ toString s.upcomingCount ++
  ",\"totalSchedules\":" ++ toString s.totalSchedules ++
  ",\"schedules\":" ++ renderList renderScheduleRow s.schedules ++ "\x7d"

/-- JSON rendering of a journal row. -/
def renderJournalRow (j : JournalR) : String :=
  "\x7b\"id\":\"" ++ j.id ++ "\",\"content\":\"" ++ j.content ++
  "\",\"mood\":\"" ++ j.mood ++ "\",\"date\":" ++ toString j.date ++ "\x7d"

/-- JSON rendering of the mood-count record. -/
def renderMoodCounts (mc : List (String × Nat)) : String :=
  "\x7b" ++ String.intercalate ","
    (mc.map (fun p => "\"" ++ p.1 ++ "\":" ++ toString p.2)) ++ "\x7d"

/-- JSON rendering of the getUserJournals result. -/
def renderJournal (j : JournalSummary) : String :=
  "\x7b\"totalEntries\":" ++ toString j.totalEntries ++
  ",\"moodCounts\":" ++ renderMoodCounts j.moodCounts ++
  ",\"recentEntries\":" ++ renderList renderJournalRow j.recentEntries ++ "\x7d"

/-- One requested call of a round, dispatched by the switch. `now` is
the wall-clock instant (`Date.now()` / `new Date()`), `dbInit` whether
the record store is initialized, `fault` an injected SQLite failure for
this call's store operation (`none` = success). Returns the result text
fed back to the model, the store contents afterwards, and the
AgenticActions pushed. A store exception is caught by the per-call
catch and turned into an `Error: ...` result; an unmatched name falls to
the default case. -/
def execToolCall (now : Nat) (dbInit : Bool) (fault : Option String)
    (db : DBState) : ToolCall → String × DBState × List AgenticAction
  | .logTransaction ttype amount category description =>
      match addTransactionD dbInit fault db.transactions
          ⟨toString now, amount, ttype, category, description, now⟩ with
      | .error e => ("Error: " ++ e, db, [])
      | .ok l =>
          ("Transaction logged: ‚Çπ" ++ toString amount ++ " for " ++ category,
           db.withTransactions l,
           [⟨.transaction, some (.logTransaction ttype amount category description), true⟩])
  | .scheduleMeeting title date time duration description =>
      match addScheduleD dbInit fault db.schedules
          ⟨toString now, title, description.getD "", date, time, 15⟩ with
      | .error e => ("Error: " ++ e, db, [])
      | .ok l =>
          ("Meeting scheduled: " ++ title ++ " on " ++ toString date ++ " at " ++ time,
           db.withSchedules l,
           [⟨.schedule, some (.scheduleMeeting title date time duration description), true⟩])
  | .addJournalEntry content mood =>
      match addJournalEntryD dbInit fault db.journals
          ⟨toString now, content, mood, now⟩ with
      | .error e => ("Error: " ++ e, db, [])
      | .ok l =>
          ("Journal entry saved with " ++ mood ++ " mood",
           db.withJournals l,
           [⟨.journal, some (.addJournalEntry content mood), true⟩])
  | .getDailyQuote quoteText => (quoteText, db, [])
  | .getUserFinances _ =>
      match getTransactionsD dbInit fault db.transactions with
      | .error e => ("Error: " ++ e, db, [])
      | .ok transactions => (renderFinance (financeSummary transactions), db, [])
  | .getUserSchedule _ =>
      match getSchedulesD dbInit fault db.schedules with
      | .error e => ("Error: " ++ e, db, [])
      | .ok schedules => (renderSchedule (scheduleSummary now schedules), db, [])
  | .getUserJournals _ =>
      match getJournalEntriesD dbInit fault db.journals with
      | .error e => ("Error: " ++ e, db, [])
      | .ok journals => (renderJournal (journalSummary journals), db, [])
  | .searchWeb _ searchText => (searchText, db, [])
  | .unknown _ => ("Unknown function", db, [])

/-- Execute every call of one round. Store writes serialize in request
order on the single-threaded event loop, and the per-call results are
assembled positionally into the follow-up request. -/
def execCalls (now : Nat) (dbInit : Bool) :
    DBState → List (ToolCall × Option String) →
    List String × DBState × List AgenticAction
  | db, [] => ([], db, [])
  | db, (c, f) :: rest =>
      let r := execToolCall now dbInit f db c
      let r' := execCalls now dbInit r.2.1 rest
      (r.1 :: r'.1, r'.2.1, r.2.2 ++ r'.2.2)

/-- One scripted response of the remote model: a final text, a batch of
requested tool calls (each with its injected store fault), or a thrown
transport error. -/
inductive ModelResponse
  | final (text : String)
  | toolCalls (calls : List (ToolCall × Option String))
  | fail (errorMsg : String)
deriving DecidableEq, Repr

/-- The tool-call round loop: consume scripted responses until a
response carries no further tool calls (`.final`) or the transport
throws (`.fail`, also used when the script is exhausted). Returns the
final text with the accumulated action log, or the thrown error, and
the store contents reached. -/
def runRounds (now : Nat) (dbInit : Bool) :
    DBState → List AgenticAction → List ModelResponse →
    Except String (String × List AgenticAction) × DBState
  | db, _, [] => (.error "No response from model", db)
  | db, acc, .final t :: _ => (.ok (t, acc), db)
  | db, _, .fail e :: _ => (.error e, db)
  | db, acc, .toolCalls cs :: rest =>
      let r := execCalls now dbInit db cs
      runRounds now dbInit r.2.1 (acc ++ r.2.2) rest

/-- The value sendMessage resolves with. -/
structure SendOutcome where
  text : String
  actions : List AgenticAction
deriving DecidableEq, Repr

/-- sendMessage around the round loop: on success return the final text
and the executed actions; a thrown error is classified by the catch
block, which returns the matching message with an **empty** action list
and, for a quota signal, installs the cooldown deadline
`Date.now() + 60000`. Returns (outcome, store contents, new
quotaResetTime). -/
def sendMessageModel (now : Nat) (dbInit : Bool) (db : DBState)
    (quotaResetTime : Nat) (script : List ModelResponse) :
    SendOutcome × DBState × Nat :=
  match runRounds now dbInit db [] script with
  | (.ok (t, acts), db') => (⟨t, acts⟩, db', quotaResetTime)
  | (.error e, db') =>
      if isQuotaError e then (⟨quotaWaitText, []⟩, db', now + 60000)
      else if isAuthError e then (⟨authErrorText, []⟩, db', quotaResetTime)
      else (⟨genericErrorText e, []⟩, db', quotaResetTime)

/-! ## Quote cache (GeminiService.generateDailyQuote)

```
if (this.quoteCache && Date.now() - this.quoteCache.timestamp < this.quoteCacheDuration) {
  return this.quoteCache.text;
}
await this.waitForRateLimit();
const result = await model.generateContent(prompt);
const quote = result.response.text();
this.quoteCache = { text: quote, timestamp: Date.now() };
return quote;
```
with a catch returning a fixed fallback text (and not touching the
cache). `remote` scripts the remote call's outcome for the case where
one is issued. -/

/-- GeminiService.quoteCacheDuration: one hour in milliseconds. -/
def quoteCacheDuration : Nat := 3600000

/-- The cache-miss path of generateDailyQuote: issue the remote request;
on success cache and return the quote, on failure return the fallback
text leaving the cache untouched. The Bool records that a remote
request was issued. -/
def freshQuote (cache : Option (String × Nat)) (now : Nat)
    (remote : Except String String) : String × Option (String × Nat) × Bool :=
  match remote with
  | .ok q => (q, some (q, now), true)
  | .error _ => ("Every day is a new opportunity to grow. üåü", cache, true)

/-- GeminiService.generateDailyQuote as a function of the cache slot,
the current time, and the scripted remote outcome. -/
def generateDailyQuote (cache : Option (String × Nat)) (now : Nat)
    (remote : Except String String) : String × Option (String × Nat) × Bool :=
  match cache with
  | some (text, ts) =>
      if now - ts < quoteCacheDuration then (text, some (text, ts), false)
      else freshQuote (some (text, ts)) now remote
  | none => freshQuote none now remote

/-- The two filters agree below position `k+1`: induction step over the
tail `rest` of the pre-filter array, where `prev` is the element at
position `k`. -/
lemma enumFilter_eq_filt2 (h1 : List Turn) :
    ∀ (rest : List Turn) (k : Nat) (prev : Turn),
      h1[k]? = some prev → h1.drop (k+1) = rest →
      ((rest.enumFrom (k+1)).filter (fun p => keepAt h1 p.1 p.2)).map Prod.snd
        = filt2 prev rest := by
  intro rest
  induction rest with
  | nil => intro k prev _ _; simp [List.enumFrom, filt2]
  | cons t rest ih =>
      intro k prev hk hdrop
      have ht : h1[k+1]? = some t := by
        have := List.getElem?_drop h1 (k+1) 0
        rw [hdrop] at this
        simpa using this.symm
      have hdrop' : h1.drop (k+2) = rest := by
        have : (h1.drop (k+1)).drop 1 = h1.drop (k+1+1) := List.drop_drop 1 (k+1) h1
        rw [hdrop] at this
        simpa using this.symm
      have hkeep : keepAt h1 (k+1) t =
          ((prev.role == "user" && t.role == "model") ||
           (prev.role == "model" && t.role == "user")) := by
        simp [keepAt, hk]
      rw [List.enumFrom]
      by_cases hv : ((prev.role == "user" && t.role == "model") ||
                     (prev.role == "model" && t.role == "user")) = true
      · rw [List.filter_cons_of_pos (by simpa [hkeep] using hv)]
        simp only [List.map_cons]
        rw [ih (k+1) t ht hdrop', filt2, if_pos hv]
      · rw [List.filter_cons_of_neg (by simpa [hkeep] using hv)]
        rw [ih (k+1) t ht hdrop', filt2, if_neg hv]

/-- Unfolding of the index-based filter on a nonempty pre-filter array:
the head survives iff it is a user turn, and the tail is filtered
against its predecessor in the pre-filter array. -/
lemma filterIdx_cons (t : Turn) (rest : List Turn) :
    filterIdx (t :: rest) =
      (if t.role == "user" then [t] else []) ++ filt2 t rest := by
  unfold filterIdx
  have h0 : (t :: rest)[0]? = some t := by simp
  have hd : (t :: rest).drop 1 = rest := by simp
  have := enumFilter_eq_filt2 (t :: rest) rest 0 t h0 hd
  rw [show (t :: rest).enum = (0, t) :: rest.enumFrom 1 by simp [List.enum, List.enumFrom]]
  by_cases hu : (t.role == "user") = true
  · rw [List.filter_cons_of_pos (by simp [keepAt, hu])]
    simp only [List.map_cons, this, hu, if_true]
    rfl
  · rw [List.filter_cons_of_neg (by simp [keepAt]; simpa using hu)]
    simp only [this, hu, if_false]
    rfl

/-- The recursive filter always produces a sublist of its input. -/
lemma filt2_sublist (prev : Turn) (rest : List Turn) :
    List.Sublist (filt2 prev rest) rest := by
  induction rest generalizing prev with
  | nil => simp [filt2]
  | cons t rest ih =>
      rw [filt2]
      by_cases hv : ((prev.role == "user" && t.role == "model") ||
                     (prev.role == "model" && t.role == "user")) = true
      · rw [if_pos hv]; exact (ih t).cons₂ t
      · rw [if_neg hv]; exact (ih t).cons t

/-- Alternation of the recursive filter, assuming all roles in the tail
are "user" or "model": the kept turns alternate starting opposite to
`prev`'s role. -/
lemma altAux_filt2 (rest : List Turn)
    (hb : ∀ x ∈ rest, x.role = "user" ∨ x.role = "model") :
    ∀ prev : Turn,
      (prev.role = "user" → altAux "model" (filt2 prev rest) = true) ∧
      (prev.role = "model" → altAux "user" (filt2 prev rest) = true) := by
  induction rest with
  | nil => intro prev; simp [filt2, altAux]
  | cons t rest ih =>
      have hbt : t.role = "user" ∨ t.role = "model" := hb t (by simp)
      have hb' : ∀ x ∈ rest, x.role = "user" ∨ x.role = "model" :=
        fun x hx => hb x (by simp [hx])
      intro prev
      constructor
      · intro hp
        rw [filt2]
        by_cases hv : ((prev.role == "user" && t.role == "model") ||
                       (prev.role == "model" && t.role == "user")) = true
        · have htm : t.role = "model" := by
            rcases Bool.or_eq_true_iff.mp hv with h | h
            · exact of_decide_eq_true (Bool.and_eq_true_iff.mp h).2
            · exact absurd (of_decide_eq_true (Bool.and_eq_true_iff.mp h).1)
                (by simp [hp])
          rw [if_pos hv]
          simp only [altAux, htm]
          simpa using ((ih hb' t).2 htm)
        · have htu : t.role = "user" := by
            rcases hbt with h | h
            · exact h
            · exact absurd (by simp [hp, h] : ((prev.role == "user" && t.role == "model") ||
                (prev.role == "model" && t.role == "user")) = true) hv
          rw [if_neg hv]
          exact (ih hb' t).1 htu
      · intro hp
        rw [filt2]
        by_cases hv : ((prev.role == "user" && t.role == "model") ||
                       (prev.role == "model" && t.role == "user")) = true
        · have htu : t.role = "user" := by
            rcases Bool.or_eq_true_iff.mp hv with h | h
            · exact absurd (of_decide_eq_true (Bool.and_eq_true_iff.mp h).1)
                (by simp [hp])
            · exact of_decide_eq_true (Bool.and_eq_true_iff.mp h).2
          rw [if_pos hv]
          simp only [altAux, htu]
          simpa using ((ih hb' t).1 htu)
        · have htm : t.role = "model" := by
            rcases hbt with h | h
            · exact absurd (by simp [hp, h] : ((prev.role == "user" && t.role == "model") ||
                (prev.role == "model" && t.role == "user")) = true) hv
            · exact h
          rw [if_neg hv]
          exact (ih hb' t).2 htm

/-- C1 counterexample: with an arbitrary (non user/model) role present,
the normalized history can start with a "model" turn, refuting the claim
as stated for histories with arbitrary roles. On input
`[role "x", role "user", role "model"]` the filter drops the first two
turns (index 0 is not a user turn; index 1's pre-filter predecessor has
role "x"), but keeps the third because its pre-filter predecessor has
role "user" — so the output is the single model turn. -/
theorem c1_normalize_counterexample :
    normalizedOK (normalizeHistory
      [⟨"x", "a"⟩, ⟨"user", "b"⟩, ⟨"model", "c"⟩]) = false ∧
    normalizeHistory [⟨"x", "a"⟩, ⟨"user", "b"⟩, ⟨"model", "c"⟩]
      = [⟨"model", "c"⟩] := by
  constructor <;> decide

/-- C1 (amended): for every input history all of whose turns have role
"user" or "model" — the only roles the surrounding application ever
produces — the normalized history starts with a user turn and strictly
alternates user/model, and it is a sublist of the input (turns are only
dropped, never rejected with an error). -/
theorem c1_normalizeHistory_ok (h : List Turn)
    (hb : ∀ x ∈ h, x.role = "user" ∨ x.role = "model") :
    normalizedOK (normalizeHistory h) = true ∧
    List.Sublist (normalizeHistory h) h := by
  match h with
  | [] => exact ⟨rfl, List.Sublist.refl _⟩
  | t :: rest =>
      have hbt : t.role = "user" ∨ t.role = "model" := hb t (by simp)
      have hb' : ∀ x ∈ rest, x.role = "user" ∨ x.role = "model" :=
        fun x hx => hb x (by simp [hx])
      rw [normalizeHistory]
      by_cases hm : (t.role == "model") = true
      · rw [if_pos hm]
        match rest with
        | [] => exact ⟨rfl, by simp [filterIdx, List.enum]⟩
        | u :: rest' =>
            have hbu : u.role = "user" ∨ u.role = "model" := hb' u (by simp)
            have hb'' : ∀ x ∈ rest', x.role = "user" ∨ x.role = "model" :=
              fun x hx => hb' x (by simp [hx])
            rw [filterIdx_cons]
            rcases hbu with hu | hu
            · have ha := (altAux_filt2 rest' hb'' u).1 hu
              refine ⟨?_, ?_⟩
              · simp [normalizedOK, altAux, hu, ha]
              · have hs := (((filt2_sublist u rest').cons₂ u).cons t)
                simpa [hu] using hs
            · have ha := (altAux_filt2 rest' hb'' u).2 hu
              refine ⟨?_, ?_⟩
              · simpa [normalizedOK, hu] using ha
              · have hs := (((filt2_sublist u rest').cons u).cons t)
                simpa [hu] using hs
      · have hu : t.role = "user" := by
          rcases hbt with h' | h'
          · exact h'
          · exact absurd (by simp [h']) hm
        rw [if_neg hm, filterIdx_cons]
        have ha := (altAux_filt2 rest hb' t).1 hu
        refine ⟨?_, ?_⟩
        · simp [normalizedOK, altAux, hu, ha]
        · have hs := ((filt2_sublist t rest).cons₂ t)
          simpa [hu] using hs

/-- C1 witness: the amended theorem applied to the concrete malformed
history user,user,model,model,user, which normalizes to user,model,user. -/
theorem c1_normalizeHistory_ok_witness :
    normalizedOK (normalizeHistory
      [⟨"user", "a"⟩, ⟨"user", "b"⟩, ⟨"model", "c"⟩,
       ⟨"model", "d"⟩, ⟨"user", "e"⟩]) = true ∧
    List.Sublist (normalizeHistory
      [⟨"user", "a"⟩, ⟨"user", "b"⟩, ⟨"model", "c"⟩,
       ⟨"model", "d"⟩, ⟨"user", "e"⟩])
      [⟨"user", "a"⟩, ⟨"user", "b"⟩, ⟨"model", "c"⟩,
       ⟨"model", "d"⟩, ⟨"user", "e"⟩] :=
  c1_normalizeHistory_ok
    [⟨"user", "a"⟩, ⟨"user", "b"⟩, ⟨"model", "c"⟩,
     ⟨"model", "d"⟩, ⟨"user", "e"⟩] (by decide)

/-- C2: evaluation of the event-loop trace at the failing input. Three
sendMessage calls arrive at t = 10000, 10001, 10002 ms (initial
`lastRequestTime = 0`, no cooldown). The first issues at 10000 and
writes `lastRequestTime`; the second and third both read that same
value while the second sleeps, so both resume and issue at 13000 —
zero spacing, refuting the claimed ≥ 3000 ms spacing for every N. The
`requestQueue`/`processQueue` FIFO machinery that would serialize them
is never invoked by `sendMessage`. -/
theorem c2_rateLimit_spacing_violation :
    issueTimes [10000, 10001, 10002] = [10000, 13000, 13000] ∧
    spacedBy (issueTimes [10000, 10001, 10002]) = false := by
  constructor <;> rfl

/-- C5: the getUserFinances / getUserSchedule / getUserJournals handlers
never read their `period` argument — the dispatch result is identical
for any two period tokens — and at the failing input (a single expense
of 250 dated 1 Jan 2020, queried with period "today" in 2026) the
aggregate still counts the out-of-period record. -/
theorem c5_period_argument_ignored :
    (∀ (now : Nat) (dbInit : Bool) (fault : Option String) (db : DBState)
       (p q : String),
      execToolCall now dbInit fault db (.getUserFinances p) =
        execToolCall now dbInit fault db (.getUserFinances q) ∧
      execToolCall now dbInit fault db (.getUserSchedule p) =
        execToolCall now dbInit fault db (.getUserSchedule q) ∧
      execToolCall now dbInit fault db (.getUserJournals p) =
        execToolCall now dbInit fault db (.getUserJournals q)) ∧
    (execToolCall 1789000000000 true none
        ⟨[⟨"1577836800000", 250, "expense", "Food", "lunch", 1577836800000⟩], [], []⟩
        (.getUserFinances "today")).1
      = renderFinance ⟨0, 250, -250, 1⟩ := by
  refine ⟨fun now dbInit fault db p q => ⟨rfl, rfl, rfl⟩, ?_⟩
  rfl

/-- C6 counterexample: the default case of the dispatch returns the
string "Unknown function" (capital U), not the claimed literal
"unknown function". -/
theorem c6_unknown_name_counterexample :
    (execToolCall 0 true none ⟨[], [], []⟩ (.unknown "fooBar")).1
      = "Unknown function" ∧
    ("Unknown function" : String) ≠ "unknown function" := by
  exact ⟨rfl, by decide⟩

/-- C6 (amended): an unmatched tool name yields the literal result
"Unknown function" and leaves the store and action log untouched; a
store exception during any of the three mutating handlers is caught
per-call and converted to an `Error: ...` result (store unchanged, no
action); and a round always produces exactly one result per requested
call, so no per-call failure aborts the round. -/
theorem c6_per_call_fault_isolation :
    (∀ (now : Nat) (dbInit : Bool) (fault : Option String) (db : DBState)
       (name : String),
      execToolCall now dbInit fault db (.unknown name) = ("Unknown function", db, [])) ∧
    (∀ (now : Nat) (db : DBState) (e : String)
       (ty : String) (amt : Int) (cat desc : String),
      execToolCall now true (some e) db (.logTransaction ty amt cat desc)
        = ("Error: " ++ e, db, [])) ∧
    (∀ (now : Nat) (db : DBState) (e : String) (title : String) (date : Nat)
       (time : String) (dur : Int) (desc : Option String),
      execToolCall now true (some e) db (.scheduleMeeting title date time dur desc)
        = ("Error: " ++ e, db, [])) ∧
    (∀ (now : Nat) (db : DBState) (e : String) (content mood : String),
      execToolCall now true (some e) db (.addJournalEntry content mood)
        = ("Error: " ++ e, db, [])) ∧
    (∀ (now : Nat) (dbInit : Bool) (db : DBState)
       (calls : List (ToolCall × Option String)),
      (execCalls now dbInit db calls).1.length = calls.length) := by
  refine ⟨fun _ _ _ _ _ => rfl, fun _ _ _ _ _ _ _ => rfl,
          fun _ _ _ _ _ _ _ _ => rfl, fun _ _ _ _ _ => rfl, ?_⟩
  intro now dbInit db calls
  induction calls generalizing db with
  | nil => rfl
  | cons c rest ih =>
      obtain ⟨call, fault⟩ := c
      simp only [execCalls, List.length_cons]
      rw [ih]

/-- C7: a fresh successful quote call at `t₀` caches `(q, t₀)`; a second
call within the one-hour TTL returns the byte-identical text `q`
without issuing a remote request and leaves the cache unchanged; a call
after the TTL has expired issues a fresh remote request; and an
unsuccessful remote call never writes the cache. -/
theorem c7_quote_cache_ttl (q : String) (t0 t1 t2 : Nat)
    (r1 r2 : Except String String)
    (hin : t1 - t0 < quoteCacheDuration)
    (hout : quoteCacheDuration ≤ t2 - t0) :
    generateDailyQuote none t0 (.ok q) = (q, some (q, t0), true) ∧
    generateDailyQuote (some (q, t0)) t1 r1 = (q, some (q, t0), false) ∧
    (generateDailyQuote (some (q, t0)) t2 r2).2.2 = true ∧
    (∀ (cache : Option (String × Nat)) (now : Nat) (e : String),
      (generateDailyQuote cache now (Except.error e)).2.1 = cache) := by
  refine ⟨rfl, ?_, ?_, ?_⟩
  · simp [generateDailyQuote, hin]
  · have : ¬ (t2 - t0 < quoteCacheDuration) := not_lt.mpr hout
    cases r2 <;> simp [generateDailyQuote, freshQuote, this]
  · intro cache now e
    match cache with
    | none => rfl
    | some (x, ts) =>
        by_cases h : now - ts < quoteCacheDuration
        · simp [generateDailyQuote, h]
        · simp [generateDailyQuote, freshQuote, h]

/-- C7 witness: the theorem at q = "Be well", t₀ = 0, a hit at t₁ = 10
and a miss at t₂ = 3600000. -/
theorem c7_quote_cache_ttl_witness :
    generateDailyQuote none 0 (.ok "Be well") = ("Be well", some ("Be well", 0), true) ∧
    generateDailyQuote (some ("Be well", 0)) 10 (.ok "Other") =
      ("Be well", some ("Be well", 0), false) ∧
    (generateDailyQuote (some ("Be well", 0)) 3600000 (.ok "Other")).2.2 = true ∧
    (∀ (cache : Option (String × Nat)) (now : Nat) (e : String),
      (generateDailyQuote cache now (Except.error e)).2.1 = cache) :=
  c7_quote_cache_ttl "Be well" 0 10 3600000 (.ok "Other") (.ok "Other")
    (by decide) (by decide)

/-- C9: every successfully executed scheduleMeeting call appends one
ScheduleItem whose reminder lead is the fixed 15 minutes — whatever
duration (or any other argument) the model supplied — and appends
exactly one AgenticAction of kind schedule to the action log; the
resulting store does not depend on the duration argument at all. -/
theorem c9_schedule_fixed_reminder (now : Nat) (db : DBState) (title : String)
    (date : Nat) (time : String) (dur : Int) (desc : Option String) :
    (execToolCall now true none db (.scheduleMeeting title date time dur desc)).2.1.schedules
      = db.schedules ++ [⟨toString now, title, desc.getD "", date, time, 15⟩] ∧
    (execToolCall now true none db (.scheduleMeeting title date time dur desc)).2.2
      = [⟨.schedule, some (.scheduleMeeting title date time dur desc), true⟩] ∧
    (∀ dur2 : Int,
      (execToolCall now true none db (.scheduleMeeting title date time dur2 desc)).2.1
        = (execToolCall now true none db (.scheduleMeeting title date time dur desc)).2.1) := by
  exact ⟨rfl, rfl, fun _ => rfl⟩

/-- C3: when the round loop throws an error whose message carries a
quota signal (429 / quota / RESOURCE_EXHAUSTED), sendMessage returns
the "please wait" text with an empty action list instead of propagating
the fault, installs the cooldown deadline now + 60000 on the governor,
and any waitForRateLimit entered before that deadline does not resume
until the deadline has passed. The catch block returns directly, so no
retry happens within the same sendMessage call. -/
theorem c3_quota_cooldown (now qr : Nat) (dbInit : Bool) (db db' : DBState)
    (script : List ModelResponse) (e : String)
    (herr : runRounds now dbInit db [] script = (.error e, db'))
    (hq : isQuotaError e = true) :
    (sendMessageModel now dbInit db qr script).1 = ⟨quotaWaitText, []⟩ ∧
    (sendMessageModel now dbInit db qr script).2.2 = now + 60000 ∧
    (∀ n last : Nat, n < now + 60000 →
      now + 60000 ≤ (waitForRateLimit n (now + 60000) last).1) := by
  refine ⟨?_, ?_, ?_⟩
  · simp [sendMessageModel, herr, hq]
  · simp [sendMessageModel, herr, hq]
  · intro n last hn
    simp only [waitForRateLimit]
    split <;> omega

/-- C3 witness: the theorem at a transport error "429 RESOURCE_EXHAUSTED"
raised at time 1000, with the next acquisition attempted at time 30000,
before the deadline 61000. -/
theorem c3_quota_cooldown_witness :
    (sendMessageModel 1000 true ⟨[], [], []⟩ 0 [.fail "429 RESOURCE_EXHAUSTED"]).1
      = ⟨quotaWaitText, []⟩ ∧
    (sendMessageModel 1000 true ⟨[], [], []⟩ 0 [.fail "429 RESOURCE_EXHAUSTED"]).2.2
      = 1000 + 60000 ∧
    (∀ n last : Nat, n < 1000 + 60000 →
      1000 + 60000 ≤ (waitForRateLimit n (1000 + 60000) last).1) :=
  c3_quota_cooldown 1000 0 true ⟨[], [], []⟩ ⟨[], [], []⟩
    [.fail "429 RESOURCE_EXHAUSTED"] "429 RESOURCE_EXHAUSTED" rfl (by decide)

/-- C8 counterexample: a list operation on an initialized store whose
underlying SQLite read throws does NOT surface a hard failure — the
catch block swallows the error and returns the empty list as a
fallback, refuting the claim for I/O failures on reads. -/
theorem c8_read_fault_fallback_counterexample :
    getTransactionsD true (some "disk I/O failure")
      [⟨"1", 5, "income", "Salary", "", 0⟩] = .ok [] := rfl

/-- C8 (amended): every record-store operation invoked before
initialization throws a hard "Database not initialized" failure to its
direct caller; create, delete and clear operations also rethrow an
underlying I/O failure; but the four list operations catch an I/O
failure and return the empty list as a fallback instead of failing. -/
theorem c8_storage_fault_surface :
    (∀ (io : Option String) (tt : List TransactionR) (t : TransactionR)
       (st : List ScheduleR) (s : ScheduleR) (jt : List JournalR) (j : JournalR)
       (ct : List ChatRow) (m : ChatRow) (i : String),
      addTransactionD false io tt t = .error "Database not initialized" ∧
      getTransactionsD false io tt = .error "Database not initialized" ∧
      deleteTransactionD false io tt i = .error "Database not initialized" ∧
      addScheduleD false io st s = .error "Database not initialized" ∧
      getSchedulesD false io st = .error "Database not initialized" ∧
      deleteScheduleD false io st i = .error "Database not initialized" ∧
      addJournalEntryD false io jt j = .error "Database not initialized" ∧
      getJournalEntriesD false io jt = .error "Database not initialized" ∧
      deleteJournalEntryD false io jt i = .error "Database not initialized" ∧
      addChatMessageFullD false io ct m = .error "Database not initialized" ∧
      getChatMessagesD false io ct = .error "Database not initialized" ∧
      clearTableD false io tt = .error "Database not initialized") ∧
    (∀ (e : String) (tt : List TransactionR) (t : TransactionR)
       (st : List ScheduleR) (s : ScheduleR) (jt : List JournalR) (j : JournalR)
       (ct : List ChatRow) (m : ChatRow) (i : String),
      addTransactionD true (some e) tt t = .error e ∧
      deleteTransactionD true (some e) tt i = .error e ∧
      addScheduleD true (some e) st s = .error e ∧
      deleteScheduleD true (some e) st i = .error e ∧
      addJournalEntryD true (some e) jt j = .error e ∧
      deleteJournalEntryD true (some e) jt i = .error e ∧
      addChatMessageFullD true (some e) ct m = .error e ∧
      clearTableD true (some e) tt = .error e) ∧
    (∀ (e : String) (tt : List TransactionR) (st : List ScheduleR)
       (jt : List JournalR) (ct : List ChatRow),
      getTransactionsD true (some e) tt = .ok [] ∧
      getSchedulesD true (some e) st = .ok [] ∧
      getJournalEntriesD true (some e) jt = .ok [] ∧
      getChatMessagesD true (some e) ct = .ok []) := by
  refine ⟨fun _ _ _ _ _ _ _ _ _ _ =>
            ⟨rfl, rfl, rfl, rfl, rfl, rfl, rfl, rfl, rfl, rfl, rfl, rfl⟩,
          fun _ _ _ _ _ _ _ _ _ _ => ⟨rfl, rfl, rfl, rfl, rfl, rfl, rfl, rfl⟩,
          fun _ _ _ _ _ => ⟨rfl, rfl, rfl, rfl⟩⟩

/-- C10: whenever the round loop ends in a thrown transport error — in
particular in a later round, after earlier rounds already executed
mutating tool calls — sendMessage returns an action list that is empty
no matter which error branch of the catch block fires, while the store
contents it leaves behind are exactly those reached by the executed
rounds: the mutations persist, but the AgenticActions recorded for them
are discarded and never surfaced. -/
theorem c10_actions_discarded_on_late_failure (now : Nat) (dbInit : Bool)
    (db : DBState) (qr : Nat) (script : List ModelResponse) (e : String)
    (herr : (runRounds now dbInit db [] script).1 = .error e) :
    (sendMessageModel now dbInit db qr script).1.actions = [] ∧
    (sendMessageModel now dbInit db qr script).2.1
      = (runRounds now dbInit db [] script).2 := by
  have hr : runRounds now dbInit db [] script
      = (Except.error e, (runRounds now dbInit db [] script).2) :=
    Prod.ext herr rfl
  constructor
  · unfold sendMessageModel
    rw [hr]
    by_cases h1 : isQuotaError e = true <;> by_cases h2 : isAuthError e = true <;>
      simp [h1, h2]
  · unfold sendMessageModel
    rw [hr]
    by_cases h1 : isQuotaError e = true <;> by_cases h2 : isAuthError e = true <;>
      simp [h1, h2]

/-- C10 witness: a first round logs an expense (mutating the store) and
the second round throws "network error"; the returned action list is
empty while the store reached by the loop keeps the transaction. -/
theorem c10_actions_discarded_witness :
    (sendMessageModel 7 true ⟨[], [], []⟩ 0
      [.toolCalls [(.logTransaction "expense" 250 "Food" "lunch", none)],
       .fail "network error"]).1.actions = [] ∧
    (sendMessageModel 7 true ⟨[], [], []⟩ 0
      [.toolCalls [(.logTransaction "expense" 250 "Food" "lunch", none)],
       .fail "network error"]).2.1
      = (runRounds 7 true ⟨[], [], []⟩ []
          [.toolCalls [(.logTransaction "expense" 250 "Food" "lunch", none)],
           .fail "network error"]).2 :=
  c10_actions_discarded_on_late_failure 7 true ⟨[], [], []⟩ 0
    [.toolCalls [(.logTransaction "expense" 250 "Food" "lunch", none)],
     .fail "network error"] "network error" rfl

/-- Core of the chat-retention analysis for a 101-row table with
pairwise-distinct timestamps and ids: the retention filter of
`addChatMessageD` keeps exactly the rows other than the unique
minimum-timestamp row `w`. -/
lemma retention_keep_eq (rows : List ChatRow) (hlen : rows.length = 101)
    (hts : (rows.map ChatRow.ts).Nodup) (hids : (rows.map ChatRow.id).Nodup) :
    ∃ w, w ∈ rows ∧ (∀ x ∈ rows, x ≠ w → w.ts < x.ts) ∧
      rows.filter (fun r => (keepIds rows).contains r.id)
        = rows.filter (fun r => r != w) := by
  obtain ⟨S, hS⟩ : ∃ S, S = sortByDesc ChatRow.ts rows := ⟨_, rfl⟩
  have hSperm : List.Perm S rows := by
    rw [hS]; exact List.perm_insertionSort _ rows
  have hSsort : List.Pairwise (fun a b : ChatRow => b.ts ≤ a.ts) S := by
    rw [hS]
    exact List.sorted_insertionSort (fun a b : ChatRow => tsGE a.ts b.ts) rows
  have hSlen : S.length = 101 := by rw [hSperm.length_eq, hlen]
  have hSne : S ≠ [] := by
    intro h; rw [h] at hSlen; simp at hSlen
  have hrnodup : rows.Nodup := hts.of_map _
  have hSnodup : S.Nodup := hSperm.nodup_iff.mpr hrnodup
  have hdecomp : S.dropLast ++ [S.getLast hSne] = S :=
    List.dropLast_append_getLast hSne
  have htake : S.take 100 = S.dropLast := by
    rw [List.dropLast_eq_take, hSlen]
  have hmin : ∀ x ∈ S.dropLast, (S.getLast hSne).ts ≤ x.ts := by
    have hp : List.Pairwise (fun a b : ChatRow => b.ts ≤ a.ts)
        (S.dropLast ++ [S.getLast hSne]) := by rw [hdecomp]; exact hSsort
    intro x hx
    exact (List.pairwise_append.mp hp).2.2 x hx _ (by simp)
  have hwnot : S.getLast hSne ∉ S.dropLast := by
    have hnd : (S.dropLast ++ [S.getLast hSne]).Nodup := by
      rw [hdecomp]; exact hSnodup
    intro hmem
    exact (List.nodup_append.mp hnd).2.2 hmem (by simp)
  have hmemS : ∀ x, x ∈ S ↔ (x ∈ S.dropLast ∨ x = S.getLast hSne) := by
    intro x
    conv_lhs => rw [← hdecomp]
    simp [List.mem_append]
  have htsinj : ∀ x ∈ rows, ∀ y ∈ rows, x.ts = y.ts → x = y :=
    fun x hx y hy hxy => List.inj_on_of_nodup_map hts hx hy hxy
  have hidinj : ∀ x ∈ rows, ∀ y ∈ rows, x.id = y.id → x = y :=
    fun x hx y hy hxy => List.inj_on_of_nodup_map hids hx hy hxy
  have hwrows : S.getLast hSne ∈ rows := hSperm.mem_iff.mp (List.getLast_mem hSne)
  have hkeep : ∀ x ∈ rows,
      ((keepIds rows).contains x.id = true ↔ x ∈ S.dropLast) := by
    intro x hx
    rw [keepIds, ← hS, htake]
    constructor
    · intro h
      have hmem : x.id ∈ (S.dropLast).map ChatRow.id := by simpa using h
      obtain ⟨y, hyd, hyx⟩ := List.mem_map.mp hmem
      have hyrows : y ∈ rows := hSperm.mem_iff.mp
        (by rw [← hdecomp]; exact List.mem_append.mpr (Or.inl hyd))
      have : y = x := hidinj y hyrows x hx hyx
      rwa [← this]
    · intro h
      simpa using List.mem_map_of_mem ChatRow.id h
  refine ⟨S.getLast hSne, hwrows, ?_, ?_⟩
  · intro x hx hne'
    have hxS : x ∈ S := hSperm.mem_iff.mpr hx
    have hxd : x ∈ S.dropLast := by
      rcases (hmemS x).mp hxS with h | h
      · exact h
      · exact absurd h hne'
    have hle := hmin x hxd
    rcases Nat.lt_or_ge (S.getLast hSne).ts x.ts with h | h
    · exact h
    · exact absurd (htsinj x hx _ hwrows (Nat.le_antisymm h hle)) hne'
  · apply List.filter_congr
    intro x hx
    by_cases hxw : x = S.getLast hSne
    · have hc : (keepIds rows).contains x.id = false := by
        rw [Bool.eq_false_iff]
        intro hh
        exact hwnot (hxw ▸ (hkeep x hx).mp hh)
      rw [hc, hxw]
      simp
    · have hxS : x ∈ S := hSperm.mem_iff.mpr hx
      have hxd : x ∈ S.dropLast := by
        rcases (hmemS x).mp hxS with h | h
        · exact h
        · exact absurd h hxw
      rw [(hkeep x hx).mpr hxd]
      simp [bne_iff_ne]
      exact hxw

/-- C4: adding a strictly newer chat message to a store of exactly 100
messages (with the distinct timestamps the claim's "the oldest"
presupposes, and the distinct ids the PRIMARY KEY guarantees) evicts
precisely the unique oldest message in the same logical write: 100
messages remain, the new one among them; every other original message
survives unchanged, no row appears that was not present; and — for any
table and message with distinct ids — an add never leaves more than 100
messages. -/
theorem c4_chat_retention (table : List ChatRow) (m : ChatRow)
    (hlen : table.length = 100)
    (hts : ((table ++ [m]).map ChatRow.ts).Nodup)
    (hids : ((table ++ [m]).map ChatRow.id).Nodup)
    (hnew : ∀ x ∈ table, x.ts < m.ts) :
    (∀ (t2 : List ChatRow) (m2 : ChatRow),
        ((t2 ++ [m2]).map ChatRow.id).Nodup →
        (addChatMessageD t2 m2).length ≤ 100) ∧
    ∃ w, w ∈ table ∧ (∀ x ∈ table, x ≠ w → w.ts < x.ts) ∧
      (addChatMessageD table m).length = 100 ∧
      m ∈ addChatMessageD table m ∧
      w ∉ addChatMessageD table m ∧
      (∀ x ∈ table, x ≠ w → x ∈ addChatMessageD table m) ∧
      (∀ x ∈ addChatMessageD table m, x ∈ table ++ [m]) := by
  constructor
  · intro t2 m2 hid2
    have hsub : List.Sublist (addChatMessageD t2 m2) (t2 ++ [m2]) :=
      List.filter_sublist _
    have hnd : ((addChatMessageD t2 m2).map ChatRow.id).Nodup :=
      hid2.sublist (hsub.map ChatRow.id)
    have hss : ((addChatMessageD t2 m2).map ChatRow.id) ⊆ keepIds (t2 ++ [m2]) := by
      intro i hi
      obtain ⟨x, hx, hxi⟩ := List.mem_map.mp hi
      have hpx := List.of_mem_filter hx
      rw [← hxi]
      simpa using hpx
    have h1 : ((addChatMessageD t2 m2).map ChatRow.id).length
        ≤ (keepIds (t2 ++ [m2])).length := (hnd.subperm hss).length_le
    have h2 : (keepIds (t2 ++ [m2])).length ≤ 100 := by
      rw [keepIds, List.length_map]
      exact List.length_take_le _ _
    have h3 : (addChatMessageD t2 m2).length
        = ((addChatMessageD t2 m2).map ChatRow.id).length :=
      (List.length_map _ _).symm
    omega
  · have hrlen : (table ++ [m]).length = 101 := by
      rw [List.length_append, hlen]; rfl
    obtain ⟨w, hwrows, huniq, hfeq⟩ := retention_keep_eq (table ++ [m]) hrlen hts hids
    have hrnodup : (table ++ [m]).Nodup := hts.of_map _
    have hwm : w ≠ m := by
      intro h
      have htne : table ≠ [] := by
        intro ht; rw [ht] at hlen; simp at hlen
      obtain ⟨x0, hx0⟩ := List.exists_mem_of_ne_nil table htne
      have hx0m : x0 ≠ m := by
        intro hxm
        have := hnew x0 hx0
        rw [hxm] at this
        exact Nat.lt_irrefl _ this
      have hx0w : x0 ≠ w := by rw [h]; exact hx0m
      have hlt := huniq x0 (List.mem_append.mpr (Or.inl hx0)) hx0w
      rw [h] at hlt
      exact absurd (hnew x0 hx0) (Nat.lt_asymm hlt)
    have hwtable : w ∈ table := by
      rcases List.mem_append.mp hwrows with h | h
      · exact h
      · exact absurd (List.mem_singleton.mp h) hwm
    have hres : addChatMessageD table m = (table ++ [m]).filter (fun r => r != w) := by
      rw [addChatMessageD]
      exact hfeq
    refine ⟨w, hwtable,
      fun x hx hxw => huniq x (List.mem_append.mpr (Or.inl hx)) hxw,
      ?_, ?_, ?_, ?_, ?_⟩
    · rw [hres, ← hrnodup.erase_eq_filter w, List.length_erase_of_mem hwrows, hrlen]
    · rw [hres]
      refine List.mem_filter.mpr ⟨List.mem_append.mpr (Or.inr (by simp)), ?_⟩
      simp [bne_iff_ne]
      exact fun hh => hwm hh.symm
    · rw [hres]
      intro hmem
      have := List.of_mem_filter hmem
      simp at this
    · intro x hx hxw
      rw [hres]
      refine List.mem_filter.mpr ⟨List.mem_append.mpr (Or.inl hx), ?_⟩
      simp [bne_iff_ne]
      exact hxw
    · intro x hxm
      rw [hres] at hxm
      exact (List.mem_filter.mp hxm).1

/-- C4 witness: the theorem at a concrete store of 100 messages with
timestamps 1..100 and a new message with timestamp 1000. -/
theorem c4_chat_retention_witness :
    (∀ (t2 : List ChatRow) (m2 : ChatRow),
        ((t2 ++ [m2]).map ChatRow.id).Nodup →
        (addChatMessageD t2 m2).length ≤ 100) ∧
    ∃ w, w ∈ (List.range 100).map
          (fun i => (⟨toString (i+1), "msg", false, i+1, ""⟩ : ChatRow)) ∧
      (∀ x ∈ (List.range 100).map
          (fun i => (⟨toString (i+1), "msg", false, i+1, ""⟩ : ChatRow)),
        x ≠ w → w.ts < x.ts) ∧
      (addChatMessageD ((List.range 100).map
          (fun i => (⟨toString (i+1), "msg", false, i+1, ""⟩ : ChatRow)))
          ⟨"777", "new", true, 1000, ""⟩).length = 100 ∧
      (⟨"777", "new", true, 1000, ""⟩ : ChatRow) ∈
        addChatMessageD ((List.range 100).map
          (fun i => (⟨toString (i+1), "msg", false, i+1, ""⟩ : ChatRow)))
          ⟨"777", "new", true, 1000, ""⟩ ∧
      w ∉ addChatMessageD ((List.range 100).map
          (fun i => (⟨toString (i+1), "msg", false, i+1, ""⟩ : ChatRow)))
          ⟨"777", "new", true, 1000, ""⟩ ∧
      (∀ x ∈ (List.range 100).map
          (fun i => (⟨toString (i+1), "msg", false, i+1, ""⟩ : ChatRow)),
        x ≠ w → x ∈ addChatMessageD ((List.range 100).map
          (fun i => (⟨toString (i+1), "msg", false, i+1, ""⟩ : ChatRow)))
          ⟨"777", "new", true, 1000, ""⟩) ∧
      (∀ x ∈ addChatMessageD ((List.range 100).map
          (fun i => (⟨toString (i+1), "msg", false, i+1, ""⟩ : ChatRow)))
          ⟨"777", "new", true, 1000, ""⟩,
        x ∈ (List.range 100).map
          (fun i => (⟨toString (i+1), "msg", false, i+1, ""⟩ : ChatRow))
          ++ [⟨"777", "new", true, 1000, ""⟩]) :=
  c4_chat_retention
    ((List.range 100).map
      (fun i => (⟨toString (i+1), "msg", false, i+1, ""⟩ : ChatRow)))
    ⟨"777", "new", true, 1000, ""⟩
    (by decide) (by decide) (by decide) (by decide)

end Lumina
